import Mathlib

/-!
# Kalag — verification of the ingestion pipeline and RAG search path

A shallow embedding of the Kalag document system.  The repository ships the
React frontend (`frontend/src/lib/api.ts`, `frontend/src/pages/Search.tsx`,
the zustand auth store) whose logic is embedded below directly from the
TypeScript source.  The Python backend (ingestion orchestrator, chunker,
retriever, search orchestrator) is not part of the source tree; those
components are modelled from the specification (each such definition says so
in its doc comment).
-/

namespace Kalag

/-! ## Chunker (modelled from the spec)

`chunk(pages: ordered list of (page_number, text)) -> ordered list of Chunk`.
Splits text into segments bounded by a target token count with a small
overlap between consecutive chunks; never splits mid-sentence when a
sentence boundary is available; each output chunk records every page_number
it draws text from.
-/

/-- Split a character list at every occurrence of a separator. -/
def splitOnChar (sep : Char) : List Char → List (List Char)
  | [] => [[]]
  | c :: rest =>
    let r := splitOnChar sep rest
    if c = sep then [] :: r
    else
      match r with
      | [] => [[c]]
      | g :: gs => (c :: g) :: gs

/-- Strip leading and trailing spaces. -/
def trimSpaces (l : List Char) : List Char :=
  ((l.dropWhile (fun c => c = ' ')).reverse.dropWhile (fun c => c = ' ')).reverse

/-- Modelled from the spec: token counting for the Chunker (backend
`ingestion/chunker.py` is not in the source tree).  A token is a
whitespace-separated word. -/
def wordCountChars (l : List Char) : Nat :=
  ((splitOnChar ' ' l).filter (fun w => w ≠ [])).length

/-- Token count of a string. -/
def wordCount (s : String) : Nat :=
  wordCountChars s.toList

/-- A sentence unit produced by splitting a page's text at sentence
boundaries; carries the page it came from and its token count. -/
structure Sent where
  page : Nat
  text : String
  tokens : Nat
  deriving Repr, DecidableEq

/-- Modelled from the spec: split the ordered page list into sentence units,
page boundaries preserved. -/
def sentsOfPages (pages : List (Nat × String)) : List Sent :=
  pages.flatMap (fun pt =>
    (((splitOnChar '.' pt.2.toList).map trimSpaces).filter
        (fun t => t ≠ [])).map
      (fun t => ⟨pt.1, String.mk t, wordCountChars t⟩))

/-- Total token count of a sentence group. -/
def sumTokens (l : List Sent) : Nat := (l.map Sent.tokens).sum

/-- Modelled from the spec: the overlap window — the longest suffix of the
previous chunk's sentences whose total token count stays within `budget`. -/
def overlapSuffix (budget : Nat) (l : List Sent) : List Sent :=
  (l.reverse.foldl
    (fun acc s =>
      if acc.2 + s.tokens ≤ budget then (s :: acc.1, acc.2 + s.tokens)
      else (acc.1, budget + 1))
    (([] : List Sent), 0)).1

/-- Target token bound per chunk. -/
def chunkTargetTokens : Nat := 20

/-- Overlap token budget between consecutive chunks. -/
def chunkOverlapTokens : Nat := 4

/-- Modelled from the spec: greedy packing of sentence units into groups
bounded by `maxTok`, with the `ovlTok`-bounded suffix of each emitted group
carried into the next one (cross-boundary context). -/
def packGo (maxTok ovlTok : Nat) (cur : List Sent) (curTok : Nat) :
    List Sent → List (List Sent)
  | [] => if cur.isEmpty then [] else [cur]
  | s :: rest =>
    if cur.isEmpty || curTok + s.tokens ≤ maxTok then
      packGo maxTok ovlTok (cur ++ [s]) (curTok + s.tokens) rest
    else
      let ovl := overlapSuffix ovlTok cur
      cur :: packGo maxTok ovlTok (ovl ++ [s]) (sumTokens ovl + s.tokens) rest

/-- A chunk as produced by the Chunker: content, monotonic index, the ordered
set of pages it spans, token count. -/
structure Chunk where
  content : String
  chunkIndex : Nat
  pageNumbers : List Nat
  tokenCount : Nat
  deriving Repr, DecidableEq

/-- Modelled from the spec: the Chunker.  `chunk pages` splits the pages'
text at sentence boundaries, packs sentences into token-bounded groups with
overlap, and emits ordered chunks annotated with every page they span. -/
def chunk (pages : List (Nat × String)) : List Chunk :=
  let groups := packGo chunkTargetTokens chunkOverlapTokens [] 0 (sentsOfPages pages)
  groups.enum.map (fun ig =>
    { content := String.intercalate ". " (ig.2.map Sent.text)
      chunkIndex := ig.1
      pageNumbers := (ig.2.map Sent.page).dedup
      tokenCount := sumTokens ig.2 })

/-! ## Data model (modelled from the spec §3; backend `db/models.py` is not
in the source tree) -/

/-- Document lifecycle status: `pending → processing → {completed | failed}`. -/
inductive Status where
  | pending | processing | completed | failed
  deriving Repr, DecidableEq

/-- A Document row: owner reference, original filename, status, total_pages
(nullable until known), processing_error (nullable), processed_at (nullable),
and the degraded-parse flag recorded in processing metadata. -/
structure Document where
  owner : Nat
  name : String
  status : Status
  totalPages : Option Nat
  processingError : Option String
  processedAt : Option Nat
  degradedParse : Bool
  deriving Repr, DecidableEq

/-- A DocumentPage row, keyed by (document_id, page_number): extracted text,
rendered image reference (absent for degraded text-only parsing),
vision_description (nullable until annotated) and content flags. -/
structure PageRow where
  docId : Nat
  pageNumber : Nat
  text : String
  imagePath : Option String
  visionDescription : Option String
  hasChart : Bool
  hasTable : Bool
  hasImage : Bool
  deriving Repr, DecidableEq

/-- A DocumentChunk row: content, monotonic chunk_index, page_numbers span,
vector_id (set once the index upsert acknowledges success), token count.
Vector ids are keyed by chunk identity `(document_id, chunk_index)`. -/
structure ChunkRow where
  docId : Nat
  chunkIndex : Nat
  content : String
  pageNumbers : List Nat
  vectorId : Option (Nat × Nat)
  tokenCount : Nat
  deriving Repr, DecidableEq

/-- A vector index entry: key = chunk identity, namespace = document owner,
the owning document and the embedding vector. -/
structure VectorEntry where
  key : Nat × Nat
  ns : Nat
  docId : Nat
  vec : List Int
  deriving Repr, DecidableEq

/-- The shared persistent state: the relational store (documents keyed by id,
page rows, chunk rows) and the vector index. -/
structure St where
  docs : Nat → Option Document
  pages : List PageRow
  chunks : List ChunkRow
  index : List VectorEntry

/-- The external adapters, as oracles: structured parse result (`none` =
unavailable after retries), the degraded fallback parser result, per-page
vision annotation, embedding success and vector, answer generation, and the
clock. -/
structure Env where
  parseResult : Option (List (Nat × String))
  fallbackResult : Option (List (Nat × String))
  describeResult : Nat → Option (String × Bool × Bool × Bool)
  embedOk : String → Bool
  embedVec : String → List Int
  generateResult : String → Option String
  now : Nat

/-! ## Vector index adapter operations (modelled from the spec §6:
`upsert(id, vector, metadata)`, `query(vector, namespace, top_k)`,
`delete(ids)`; backend `rag/vectorstore.py` is not in the source tree) -/

/-- Upsert keyed by chunk identity: replace the entry with the same key if
present, else append. -/
def upsertVec (index : List VectorEntry) (e : VectorEntry) : List VectorEntry :=
  if index.any (fun x => x.key = e.key) then
    index.map (fun x => if x.key = e.key then e else x)
  else index ++ [e]

/-- Look a vector up by its id (the round-trip read used by the integrity
property). -/
def lookupVec (index : List VectorEntry) (k : Nat × Nat) : Option (List Int) :=
  (index.find? (fun x => x.key = k)).map VectorEntry.vec

/-- All index entries referencing a document. -/
def entriesFor (index : List VectorEntry) (d : Nat) : List VectorEntry :=
  index.filter (fun e => e.docId = d)

/-- Delete every vector referencing a document (the failure-path purge). -/
def purgeVecs (index : List VectorEntry) (d : Nat) : List VectorEntry :=
  index.filter (fun e => e.docId ≠ d)

/-! ## Ingestion Orchestrator (modelled from the spec §4.1; backend
orchestration code is not in the source tree) -/

/-- The observable actions of one ingestion run, in order: the check-and-set
lease acquisition, the external calls, and the persisted outcomes. -/
inductive Action where
  | casProcessing
  | callParser
  | callFallback
  | callVision (page : Nat)
  | runChunker
  | callEmbed (i : Nat)
  | upsertVector (i : Nat)
  | purgeVectors
  | persistCompleted
  | persistFailed
  deriving Repr, DecidableEq

/-- Update a document row in place. -/
def setDoc (st : St) (d : Nat) (doc : Document) : St :=
  { st with docs := fun i => if i = d then some doc else st.docs i }

/-- Upsert a page row by (document_id, page_number) — not appended blindly. -/
def upsertPage (pages : List PageRow) (p : PageRow) : List PageRow :=
  if pages.any (fun q => q.docId = p.docId ∧ q.pageNumber = p.pageNumber) then
    pages.map (fun q =>
      if q.docId = p.docId ∧ q.pageNumber = p.pageNumber then p else q)
  else pages ++ [p]

/-- Upsert a chunk row by (document_id, chunk_index). -/
def upsertChunk (chunks : List ChunkRow) (c : ChunkRow) : List ChunkRow :=
  if chunks.any (fun q => q.docId = c.docId ∧ q.chunkIndex = c.chunkIndex) then
    chunks.map (fun q =>
      if q.docId = c.docId ∧ q.chunkIndex = c.chunkIndex then c else q)
  else chunks ++ [c]

/-- All chunk rows of a document. -/
def chunksFor (chunks : List ChunkRow) (d : Nat) : List ChunkRow :=
  chunks.filter (fun c => c.docId = d)

/-- All page rows of a document. -/
def pagesFor (pages : List PageRow) (d : Nat) : List PageRow :=
  pages.filter (fun p => p.docId = d)

/-- Modelled from the spec: stage 1 (Parse, backend `ingestion/parser.py` is
not in the source tree) — the per-page text plus whether the degraded
fallback was used. -/
def parseStage (env : Env) : Option (List (Nat × String) × Bool) :=
  match env.parseResult with
  | some ps => some (ps, false)
  | none =>
    match env.fallbackResult with
    | some ps => some (ps, true)
    | none => none

/-- Modelled from the spec: stage 2 (Annotate, backend `ingestion/vision.py`
is not in the source tree) — annotate one parsed page.  Structured parsing renders an image;
the degraded fallback extracts raw text only.  An individual annotation
failure leaves the description null and the flags false. -/
def annotatePage (env : Env) (d : Nat) (degraded : Bool) (pt : Nat × String) :
    PageRow :=
  let base : PageRow :=
    { docId := d, pageNumber := pt.1, text := pt.2
      imagePath := if degraded then none else some ("page-" ++ toString pt.1)
      visionDescription := none
      hasChart := false, hasTable := false, hasImage := false }
  if degraded then base
  else
    match env.describeResult pt.1 with
    | none => base
    | some r =>
      { base with visionDescription := some r.1
                  hasChart := r.2.1, hasTable := r.2.2.1, hasImage := r.2.2.2 }

/-- Turn a Chunker chunk into a DocumentChunk row (vector_id unset until the
index upsert acknowledges success). -/
def rowOfChunk (d : Nat) (c : Chunk) : ChunkRow :=
  { docId := d, chunkIndex := c.chunkIndex, content := c.content
    pageNumbers := c.pageNumbers, vectorId := none, tokenCount := c.tokenCount }

/-- Set a chunk row's vector_id after the upsert acknowledged. -/
def setChunkVid (chunks : List ChunkRow) (d i : Nat) : List ChunkRow :=
  chunks.map (fun c =>
    if c.docId = d ∧ c.chunkIndex = i then { c with vectorId := some (d, i) }
    else c)

/-- Clear the vector_ids of a document's chunks (failure-path cleanup, keeps
rows and index 1:1). -/
def clearVids (chunks : List ChunkRow) (d : Nat) : List ChunkRow :=
  chunks.map (fun c => if c.docId = d then { c with vectorId := none } else c)

/-- Modelled from the spec: stage 4 (Embed + Index, backend
`rag/embeddings.py` and `rag/vectorstore.py` are not in the source tree) —
embed and index the chunks sequentially; on the first embedding
failure stop and report failure.  Each success upserts the vector and only
then persists the chunk's vector_id. -/
def embedLoop (env : Env) (owner d : Nat) (st : St) :
    List ChunkRow → St × List Action × Bool
  | [] => (st, [], true)
  | c :: rest =>
    if env.embedOk c.content then
      let e : VectorEntry :=
        { key := (d, c.chunkIndex), ns := owner, docId := d
          vec := env.embedVec c.content }
      let st1 := { st with index := upsertVec st.index e
                           chunks := setChunkVid st.chunks d c.chunkIndex }
      let r := embedLoop env owner d st1 rest
      (r.1, Action.callEmbed c.chunkIndex :: Action.upsertVector c.chunkIndex :: r.2.1, r.2.2)
    else (st, [Action.callEmbed c.chunkIndex], false)

/-- Modelled from the spec: the failure path of stage 5 (Finalize) — record a human-readable processing_error, purge
every vector referencing it (including already-upserted ones) and clear the
corresponding vector_ids. -/
def failDoc (st : St) (d : Nat) (doc : Document) (msg : String) : St :=
  let st1 := setDoc st d
    { doc with status := Status.failed, processingError := some msg }
  { st1 with index := purgeVecs st1.index d, chunks := clearVids st1.chunks d }

/-- The annotated page rows written by stages 1–2. -/
def parsedRows (env : Env) (d : Nat) (pr : List (Nat × String) × Bool) :
    List PageRow :=
  pr.1.map (annotatePage env d pr.2)

/-- The chunk rows produced by stage 3 (Chunker output over the parsed
pages). -/
def docRows (d : Nat) (pagesParsed : List (Nat × String)) : List ChunkRow :=
  (chunk pagesParsed).map (rowOfChunk d)

/-- The state after stages 1–3: page rows upserted by
(document_id, page_number), chunk rows upserted by
(document_id, chunk_index). -/
def stagedState (env : Env) (st : St) (d : Nat)
    (pr : List (Nat × String) × Bool) : St :=
  let st1 := { st with pages := (parsedRows env d pr).foldl upsertPage st.pages }
  { st1 with chunks := (docRows d pr.1).foldl upsertChunk st1.chunks }

/-- The external-call actions of the parse stage. -/
def parseActs (pr : List (Nat × String) × Bool) : List Action :=
  if pr.2 then [Action.callParser, Action.callFallback] else [Action.callParser]

/-- The external-call actions of the annotation stage (none when degraded —
the fallback has no rendered images to describe). -/
def visionActs (pr : List (Nat × String) × Bool) : List Action :=
  if pr.2 then [] else pr.1.map (fun pt => Action.callVision pt.1)

/-- Modelled from the spec: the staged work of one ingestion run after the
lease was acquired (`doc` is the
row as read, already marked `processing` in `st`). -/
def runStages (env : Env) (st : St) (d : Nat) (doc : Document) :
    St × List Action :=
  match parseStage env with
  | none =>
    (failDoc st d doc "parsing failed",
     [Action.callParser, Action.callFallback, Action.purgeVectors,
      Action.persistFailed])
  | some pr =>
    if pr.1.isEmpty then
      (failDoc st d doc "parsing produced no pages",
       [Action.callParser, Action.purgeVectors, Action.persistFailed])
    else
      let st2 := stagedState env st d pr
      let crows := docRows d pr.1
      let doc1 := { doc with status := Status.processing, degradedParse := pr.2 }
      let r := embedLoop env doc.owner d st2 crows
      if r.2.2 then
        (setDoc r.1 d
          { doc1 with status := Status.completed
                      totalPages := some pr.1.length
                      processedAt := some env.now },
         parseActs pr ++ visionActs pr ++ [Action.runChunker] ++ r.2.1 ++
           [Action.persistCompleted])
      else
        (failDoc r.1 d doc1 "embedding failed",
         parseActs pr ++ visionActs pr ++ [Action.runChunker] ++ r.2.1 ++
           [Action.purgeVectors, Action.persistFailed])

/-- Modelled from the spec: `ingest(document)`.  The first action is the
atomic check-and-set `pending → processing`, persisted before any external
call; an attempt on a document that is not `pending` observes its status and
declines to start (no actions, state unchanged). -/
def ingest (env : Env) (st : St) (d : Nat) : St × List Action :=
  match st.docs d with
  | none => (st, [])
  | some doc =>
    if doc.status = Status.pending then
      let st1 := setDoc st d { doc with status := Status.processing }
      let r := runStages env st1 d { doc with status := Status.processing }
      (r.1, Action.casProcessing :: r.2)
    else (st, [])

/-! ## Retriever (modelled from the spec §4.3; backend `rag/retriever.py` is
not in the source tree) -/

/-- Similarity score between two embedding vectors (dot product). -/
def dot : List Int → List Int → Int
  | [], _ => 0
  | _, [] => 0
  | a :: as_, b :: bs => a * b + dot as_ bs

/-- Insertion step of the ranking sort. -/
def insertRanked (le : α → α → Bool) (a : α) : List α → List α
  | [] => [a]
  | b :: l => if le a b then a :: b :: l else b :: insertRanked le a l

/-- Ranking sort (insertion sort by the given Boolean order). -/
def sortRanked (le : α → α → Bool) : List α → List α
  | [] => []
  | a :: l => insertRanked le a (sortRanked le l)

/-- Ranking order on scored hits: higher similarity first; ties in score
break by lower chunk_index (earlier in the document) for determinism. -/
def rankLe (a b : VectorEntry × Int) : Bool :=
  b.2 < a.2 || (a.2 = b.2 && a.1.key.2 ≤ b.1.key.2)

/-- Modelled from the spec: the Vector Index Adapter's
`query(vector, namespace, top_k)` — restrict to the namespace, rank the
nearest `topK` by similarity. -/
def queryIndex (index : List VectorEntry) (qv : List Int) (ns topK : Nat) :
    List (VectorEntry × Int) :=
  (sortRanked rankLe
    ((index.filter (fun e => e.ns = ns)).map (fun e => (e, dot qv e.vec)))).take topK

/-- Citation material for one retrieved chunk: the owning document (id, name,
owner), the chunk row, the cited page and its rendered image reference, and
the relevance score. -/
structure Retrieved where
  docId : Nat
  docName : String
  owner : Nat
  chunkRow : ChunkRow
  pageNumber : Nat
  imagePath : Option String
  score : Int
  deriving Repr, DecidableEq

/-- Resolve one index hit back to its DocumentChunk and DocumentPage(s); a
hit that no longer resolves is dropped. -/
def resolveHit (st : St) (h : VectorEntry × Int) : Option Retrieved :=
  match st.docs h.1.docId with
  | none => none
  | some doc =>
    match st.chunks.find?
        (fun c => c.docId = h.1.docId ∧ c.vectorId = some h.1.key) with
    | none => none
    | some c =>
      let pn := c.pageNumbers.headD 1
      some { docId := h.1.docId, docName := doc.name, owner := doc.owner
             chunkRow := c, pageNumber := pn
             imagePath :=
               (st.pages.find?
                 (fun p => p.docId = h.1.docId ∧ p.pageNumber = pn)).bind
                 PageRow.imagePath
             score := h.2 }

/-- Modelled from the spec: `retrieve(query, owner, top_k)` — embed the query
with the same Embedding Client, query the index restricted to the owner's
namespace, resolve hits back to citation material.  Returns an empty list
(not an error) when nothing is indexed for the owner. -/
def retrieve (env : Env) (st : St) (q : String) (owner topK : Nat) :
    List Retrieved :=
  (queryIndex st.index (env.embedVec q) owner topK).filterMap (resolveHit st)

/-! ## Search result shape (embedded from the source:
`frontend/src/pages/Search.tsx`, the `Citation` and `SearchResult`
interfaces) -/

/-- The `Citation` interface from `frontend/src/pages/Search.tsx`: document_id,
document_name, page_number, chunk_content, relevance_score, image_url
(nullable). -/
structure Citation where
  document_id : String
  document_name : String
  page_number : Nat
  chunk_content : String
  relevance_score : Int
  image_url : Option String
  deriving Repr, DecidableEq

/-- The `SearchResult` interface from `frontend/src/pages/Search.tsx`: answer, citations,
query, processing_time_ms. -/
structure SearchResult where
  answer : String
  citations : List Citation
  query : String
  processing_time_ms : Nat
  deriving Repr, DecidableEq

/-- A SearchHistory row: user, query text, generated response, count of
chunks retrieved, response latency. -/
structure SearchHistoryRow where
  userId : Nat
  query : String
  response : String
  chunksRetrieved : Nat
  responseTimeMs : Nat
  deriving Repr, DecidableEq

/-! ## Answer Generator and Search Orchestrator (modelled from the spec
§4.4–4.5; backend `rag/generator.py` and the search route are not in the
source tree) -/

/-- Modelled from the spec: the grounded prompt — each retrieved chunk's text
verbatim with an explicit reference marker, and an instruction to answer only
from the supplied context. -/
def buildPrompt (q : String) (rs : List Retrieved) : String :=
  "Answer only from the supplied context. " ++
    String.intercalate " "
      (rs.map (fun r =>
        "[" ++ toString r.docId ++ ":" ++ toString r.chunkRow.chunkIndex ++
          "] " ++ r.chunkRow.content)) ++
    " Question: " ++ q

/-- Modelled from the spec: the valid, answerable empty-corpus response. -/
def noInfoAnswer : String :=
  "No information found in your documents."

/-- Modelled from the spec: build one citation from a retrieved chunk — an image reference only if
`include_images` was requested and the cited page has one (null otherwise). -/
def toCitation (includeImages : Bool) (r : Retrieved) : Citation :=
  { document_id := toString r.docId
    document_name := r.docName
    page_number := r.pageNumber
    chunk_content := r.chunkRow.content
    relevance_score := r.score
    image_url := if includeImages then r.imagePath else none }

/-- Modelled from the spec: `search(user, query, top_k, include_images)` —
retrieve, then generate a grounded answer; zero citations is a valid
"no information found" success; a failed or empty generation surfaces a clear
"could not generate an answer" error.  On success a SearchHistory row with
latency and retrieved-chunk count is recorded alongside the result. -/
def search (env : Env) (st : St) (user : Nat) (q : String)
    (topK : Nat) (includeImages : Bool) (elapsedMs : Nat) :
    Except String (SearchResult × SearchHistoryRow) :=
  let rs := retrieve env st q user topK
  if rs.isEmpty then
    Except.ok
      ({ answer := noInfoAnswer, citations := [], query := q
         processing_time_ms := elapsedMs },
       { userId := user, query := q, response := noInfoAnswer
         chunksRetrieved := 0, responseTimeMs := elapsedMs })
  else
    match env.generateResult (buildPrompt q rs) with
    | none => Except.error "could not generate an answer"
    | some txt =>
      if txt = "" then Except.error "could not generate an answer"
      else
        Except.ok
          ({ answer := txt, citations := rs.map (toCitation includeImages)
             query := q, processing_time_ms := elapsedMs },
           { userId := user, query := q, response := txt
             chunksRetrieved := rs.length, responseTimeMs := elapsedMs })

/-! ## API client (embedded from the source: `frontend/src/lib/api.ts`) -/

/-- The module-level token state of `api.ts`: `currentToken` and the axios
default `Authorization` header. -/
structure ApiTokenState where
  currentToken : Option String
  authHeader : Option String
  deriving Repr, DecidableEq

/-- Function `setAuthToken` from `api.ts`: store the token and set the default
`Authorization: Bearer <token>` header. -/
def setAuthToken (t : String) : ApiTokenState :=
  { currentToken := some t, authHeader := some ("Bearer " ++ t) }

/-- Function `clearAuthToken` from `api.ts`: null the token and delete the default
`Authorization` header. -/
def clearAuthToken : ApiTokenState :=
  { currentToken := none, authHeader := none }

/-- Does `needle` occur contiguously inside `hay`? -/
def listHasSub (needle : List Char) : List Char → Bool
  | [] => needle.isEmpty
  | c :: t => needle.isPrefixOf (c :: t) || listHasSub needle t

/-- Substring test, mirroring JavaScript `String.prototype.includes`. -/
def strContains (hay needle : String) : Bool :=
  listHasSub needle.toList hay.toList

/-- An axios request config as the interceptor sees it: the url, the
`_retry` marker, and the request's `Authorization` header. -/
structure ReqConfig where
  url : String
  retryFlag : Bool
  authHeader : Option String
  deriving Repr, DecidableEq

/-- The error the response interceptor receives: HTTP status and the
originating request config. -/
structure ErrResp where
  status : Nat
  config : ReqConfig
  deriving Repr, DecidableEq

/-- What the response interceptor settles to: reject the original error
(carrying the original status and its config), or re-issue the original
request with a (possibly updated) config. -/
inductive InterceptOutcome where
  | reject (status : Nat) (cfg : ReqConfig)
  | retry (cfg : ReqConfig)
  deriving Repr, DecidableEq

/-- The response-error interceptor of `api.ts` (lines 47–86).
`refreshResult` is the outcome of `POST /api/auth/refresh`: `some token` on
success, `none` on failure.  A 401 on a request that is not `/auth/refresh`
or `/auth/login` and has not been retried marks `_retry`, refreshes, and on
success retries the original request with the new bearer token; on refresh
failure it clears the stored token and propagates the original error.  Every
other error is rejected unchanged. -/
def onResponseError (refreshResult : Option String) (tok : ApiTokenState)
    (e : ErrResp) : ApiTokenState × InterceptOutcome :=
  let isRefreshRequest := strContains e.config.url "/auth/refresh"
  let isLoginRequest := strContains e.config.url "/auth/login"
  let alreadyRetried := e.config.retryFlag
  if e.status = 401 ∧ isRefreshRequest = false ∧ isLoginRequest = false ∧
      alreadyRetried = false then
    let cfg1 := { e.config with retryFlag := true }
    match refreshResult with
    | some t =>
      (setAuthToken t,
       InterceptOutcome.retry { cfg1 with authHeader := some ("Bearer " ++ t) })
    | none => (clearAuthToken, InterceptOutcome.reject e.status cfg1)
  else (tok, InterceptOutcome.reject e.status e.config)

/-! ## Auth store (embedded from the source: the zustand auth store —
`useAuthStore`) -/

/-- The `User` record of the auth store. -/
structure AuthUser where
  id : String
  email : String
  full_name : Option String
  is_active : Bool
  created_at : String
  deriving Repr, DecidableEq

/-- The auth store's state fields. -/
structure AuthState where
  user : Option AuthUser
  accessToken : Option String
  expiresAt : Option Nat
  isAuthenticated : Bool
  isLoading : Bool
  deriving Repr, DecidableEq

/-- Action `logout` from the auth store: `POST /api/auth/logout` (its error, if
any, is swallowed), then clear user/accessToken/expiresAt/isAuthenticated,
clear the api token state, and cancel any scheduled refresh timer.
`postLogoutResult` is the outcome of the POST; `refreshTimeoutId` the
currently scheduled refresh timer, if any. -/
def logout (postLogoutResult : Except String Unit) (s : AuthState)
    (tok : ApiTokenState) (refreshTimeoutId : Option Nat) :
    AuthState × ApiTokenState × Option Nat :=
  let _ := postLogoutResult
  let _ := tok
  let _ := refreshTimeoutId
  ({ s with user := none, accessToken := none, expiresAt := none
            isAuthenticated := false },
   clearAuthToken,
   none)

/-! ## Concrete example inputs -/

/-- A 15-token sample sentence. -/
def sampleS1 : String :=
  "alpha beta gamma delta epsilon zeta eta theta iota kappa lambda mu nu xi omicron"

/-- Another 15-token sample sentence. -/
def sampleS2 : String :=
  "one two three four five six seven eight nine ten eleven twelve thirteen fourteen fifteen"

/-- An environment whose adapters all succeed. -/
def envAllOk : Env :=
  { parseResult := some [(1, sampleS1 ++ ". " ++ sampleS2)]
    fallbackResult := none
    describeResult := fun _ => none
    embedOk := fun _ => true
    embedVec := fun s => [Int.ofNat s.length]
    generateResult := fun _ => some "grounded answer"
    now := 99 }

/-- Like `envAllOk` but embedding fails on the second chunk (the one
containing the word "eleven") after the first chunk's vector was already
upserted. -/
def envEmbedFail : Env :=
  { envAllOk with embedOk := fun s => !(strContains s "eleven") }

/-- A freshly uploaded pending document. -/
def pendingDoc : Document :=
  { owner := 5, name := "report.pdf", status := Status.pending
    totalPages := none, processingError := none, processedAt := none
    degradedParse := false }

/-- The state right after the upload of document 7: no pages, chunks or
vectors yet. -/
def uploadSt : St :=
  { docs := fun i => if i = 7 then some pendingDoc else none
    pages := [], chunks := [], index := [] }

/-- A state with one completed single-chunk document for owner 5. -/
def searchStW : St :=
  { docs := fun i =>
      if i = 7 then
        some { owner := 5, name := "r.pdf", status := Status.completed
               totalPages := some 1, processingError := none
               processedAt := some 9, degradedParse := false }
      else none
    pages := [{ docId := 7, pageNumber := 1, text := "alpha"
                imagePath := some "page-1", visionDescription := none
                hasChart := false, hasTable := false, hasImage := false }]
    chunks := [{ docId := 7, chunkIndex := 0, content := "alpha"
                 pageNumbers := [1], vectorId := some (7, 0)
                 tokenCount := 1 }]
    index := [{ key := (7, 0), ns := 5, docId := 7, vec := [3] }] }

/-- A query-time environment for `searchStW`. -/
def searchEnvW : Env :=
  { parseResult := none, fallbackResult := none
    describeResult := fun _ => none, embedOk := fun _ => true
    embedVec := fun _ => [2], generateResult := fun _ => some "the answer"
    now := 0 }

/-- The single retrieval hit produced on `searchStW`. -/
def retrievedW : Retrieved :=
  { docId := 7, docName := "r.pdf", owner := 5
    chunkRow := { docId := 7, chunkIndex := 0, content := "alpha"
                  pageNumbers := [1], vectorId := some (7, 0), tokenCount := 1 }
    pageNumber := 1, imagePath := some "page-1", score := 6 }

/-- The search result produced on `searchStW`. -/
def searchResultW : SearchResult :=
  { answer := "the answer"
    citations := [{ document_id := "7", document_name := "r.pdf"
                    page_number := 1, chunk_content := "alpha"
                    relevance_score := 6, image_url := some "page-1" }]
    query := "alpha", processing_time_ms := 42 }

/-- The history row recorded alongside `searchResultW`. -/
def searchHistW : SearchHistoryRow :=
  { userId := 5, query := "alpha", response := "the answer"
    chunksRetrieved := 1, responseTimeMs := 42 }

/-! ## Derived state observations -/

/-- The persisted status of a document, if the row exists. -/
def statusOf (st : St) (d : Nat) : Option Status :=
  (st.docs d).map Document.status

/-- The persisted processing_error of a document, if the row exists. -/
def errorOf (st : St) (d : Nat) : Option String :=
  (st.docs d).bind Document.processingError

/-- Well-formed namespacing: every vector entry's owning document exists and
its owner is the entry's namespace. -/
def wfNamespaces (st : St) : Prop :=
  ∀ e ∈ st.index, (st.docs e.docId).map Document.owner = some e.ns

/-- Well-formed index: every vector entry belongs to an existing, `completed`
document owned by the entry's namespace. -/
def wfIndexB (st : St) : Bool :=
  st.index.all (fun e =>
    match st.docs e.docId with
    | none => false
    | some doc => doc.owner == e.ns && doc.status == Status.completed)

/-- The owner has no completed documents. -/
def ownerHasNoCompleted (st : St) (u : Nat) : Prop :=
  ∀ i, match st.docs i with
       | none => True
       | some doc => doc.owner = u → doc.status ≠ Status.completed

/-! ## Theorems -/

/-- Claim C5: the Chunker is deterministic — two calls of `chunk` on the same
ordered list of (page_number, text) pages produce identical outputs: the
same chunk boundaries (contents), the same chunk ordering (indices), and the
same page_numbers spans. -/
theorem chunk_deterministic (p q : List (Nat × String)) (h : p = q) :
    chunk p = chunk q ∧
    (chunk p).map Chunk.content = (chunk q).map Chunk.content ∧
    (chunk p).map Chunk.chunkIndex = (chunk q).map Chunk.chunkIndex ∧
    (chunk p).map Chunk.pageNumbers = (chunk q).map Chunk.pageNumbers := by
  subst h
  exact ⟨rfl, rfl, rfl, rfl⟩

/-- Witness for C5 at a concrete two-page input. -/
theorem chunk_deterministic_witness :
    chunk [(1, "alpha beta. gamma"), (2, "delta")] =
      chunk [(1, "alpha beta. gamma"), (2, "delta")] ∧
    (chunk [(1, "alpha beta. gamma"), (2, "delta")]).map Chunk.content =
      (chunk [(1, "alpha beta. gamma"), (2, "delta")]).map Chunk.content ∧
    (chunk [(1, "alpha beta. gamma"), (2, "delta")]).map Chunk.chunkIndex =
      (chunk [(1, "alpha beta. gamma"), (2, "delta")]).map Chunk.chunkIndex ∧
    (chunk [(1, "alpha beta. gamma"), (2, "delta")]).map Chunk.pageNumbers =
      (chunk [(1, "alpha beta. gamma"), (2, "delta")]).map Chunk.pageNumbers :=
  chunk_deterministic [(1, "alpha beta. gamma"), (2, "delta")]
    [(1, "alpha beta. gamma"), (2, "delta")] rfl

/-- Claim C4: re-ingestion is idempotent — invoking `ingest` on a document that
is already `completed` leaves the whole state unchanged, in particular the
set of DocumentChunk rows and the set of vector index entries for that
document (no duplicated chunks, no orphaned vectors). -/
theorem ingest_completed_idempotent (env : Env) (st : St) (d : Nat)
    (doc : Document) (hdoc : st.docs d = some doc)
    (hc : doc.status = Status.completed) :
    ingest env st d = (st, []) ∧
    chunksFor (ingest env st d).1.chunks d = chunksFor st.chunks d ∧
    entriesFor (ingest env st d).1.index d = entriesFor st.index d := by
  have hid : ingest env st d = (st, []) := by
    unfold ingest
    rw [hdoc]
    simp [hc]
  exact ⟨hid, by rw [hid], by rw [hid]⟩

/-- Witness for C4: a completed document is untouched by a re-ingestion. -/
theorem ingest_completed_idempotent_witness :
    ingest
      { parseResult := some [(1, "alpha")], fallbackResult := none
        describeResult := fun _ => none, embedOk := fun _ => true
        embedVec := fun _ => [1], generateResult := fun _ => none, now := 0 }
      { docs := fun i =>
          if i = 3 then
            some { owner := 1, name := "a.pdf", status := Status.completed
                   totalPages := some 1, processingError := none
                   processedAt := some 5, degradedParse := false }
          else none
        pages := [], chunks := [], index := [] } 3 =
    ({ docs := fun i =>
         if i = 3 then
           some { owner := 1, name := "a.pdf", status := Status.completed
                  totalPages := some 1, processingError := none
                  processedAt := some 5, degradedParse := false }
         else none
       pages := [], chunks := [], index := [] }, []) :=
  (ingest_completed_idempotent _ _ 3 _ rfl rfl).1

/-- Claim C6: the `processing` status is a lease — `ingest` on a document that
is already `processing` observes that state and declines to start (state
unchanged, no stage work at all), and on a `pending` document the very first
action of the run is the atomic check-and-set transition to `processing`,
before any external call. -/
theorem ingest_processing_lease (env : Env) (st : St) (d : Nat)
    (doc : Document) (hdoc : st.docs d = some doc) :
    (doc.status = Status.processing → ingest env st d = (st, [])) ∧
    (doc.status = Status.pending →
      (ingest env st d).2.head? = some Action.casProcessing) := by
  constructor
  · intro hp
    unfold ingest
    rw [hdoc]
    simp [hp]
  · intro hp
    unfold ingest
    rw [hdoc]
    simp [hp]

/-- Witness for C6: a second attempt on a `processing` document does nothing,
and a run on a `pending` document leads with the check-and-set. -/
theorem ingest_processing_lease_witness :
    ingest
      { parseResult := some [(1, "alpha")], fallbackResult := none
        describeResult := fun _ => none, embedOk := fun _ => true
        embedVec := fun _ => [1], generateResult := fun _ => none, now := 0 }
      { docs := fun i =>
          if i = 3 then
            some { owner := 1, name := "a.pdf", status := Status.processing
                   totalPages := none, processingError := none
                   processedAt := none, degradedParse := false }
          else none
        pages := [], chunks := [], index := [] } 3 =
    ({ docs := fun i =>
         if i = 3 then
           some { owner := 1, name := "a.pdf", status := Status.processing
                  totalPages := none, processingError := none
                  processedAt := none, degradedParse := false }
         else none
       pages := [], chunks := [], index := [] }, []) ∧
    (ingest
      { parseResult := some [(1, "alpha")], fallbackResult := none
        describeResult := fun _ => none, embedOk := fun _ => true
        embedVec := fun _ => [1], generateResult := fun _ => none, now := 0 }
      { docs := fun i =>
          if i = 3 then
            some { owner := 1, name := "a.pdf", status := Status.pending
                   totalPages := none, processingError := none
                   processedAt := none, degradedParse := false }
          else none
        pages := [], chunks := [], index := [] } 3).2.head? =
      some Action.casProcessing :=
  ⟨(ingest_processing_lease _ _ 3 _ rfl).1 rfl,
   (ingest_processing_lease _ _ 3 _ rfl).2 rfl⟩

/-- Claim C10: the auth store's `logout` resets user, accessToken, expiresAt
and isAuthenticated, clears the api token state (stored token and
Authorization header) and cancels any scheduled refresh timer — identically
whether the `POST /api/auth/logout` request succeeded or rejected (its error
is swallowed). -/
theorem logout_clears_locally (r : Except String Unit) (s : AuthState)
    (tok : ApiTokenState) (t : Option Nat) :
    logout r s tok t =
      ({ user := none, accessToken := none, expiresAt := none
         isAuthenticated := false, isLoading := s.isLoading },
       { currentToken := none, authHeader := none }, none) ∧
    (∀ msg, logout (Except.error msg) s tok t = logout (Except.ok ()) s tok t) :=
  ⟨rfl, fun _ => rfl⟩

/-- Claim C9: the 401 refresh-and-retry path of the api client's response
interceptor runs at most once per original request (a request already
carrying the `_retry` flag is rejected without a refresh; a retried request
always carries the flag), never runs for `/auth/refresh` or `/auth/login`
requests, and when the refresh attempt itself fails the stored token is
cleared and the original 401 error is propagated. -/
theorem interceptor_refresh_guard (r : Option String) (tok : ApiTokenState)
    (e : ErrResp) :
    (e.config.retryFlag = true →
      onResponseError r tok e = (tok, InterceptOutcome.reject e.status e.config)) ∧
    (strContains e.config.url "/auth/refresh" = true →
      onResponseError r tok e = (tok, InterceptOutcome.reject e.status e.config)) ∧
    (strContains e.config.url "/auth/login" = true →
      onResponseError r tok e = (tok, InterceptOutcome.reject e.status e.config)) ∧
    (∀ cfg, (onResponseError r tok e).2 = InterceptOutcome.retry cfg →
      cfg.retryFlag = true) ∧
    (e.status = 401 → e.config.retryFlag = false →
      strContains e.config.url "/auth/refresh" = false →
      strContains e.config.url "/auth/login" = false → r = none →
      onResponseError r tok e =
        (clearAuthToken,
         InterceptOutcome.reject e.status { e.config with retryFlag := true })) := by
  refine ⟨?_, ?_, ?_, ?_, ?_⟩
  · intro h
    unfold onResponseError
    simp [h]
  · intro h
    unfold onResponseError
    simp [h]
  · intro h
    unfold onResponseError
    simp [h]
  · intro cfg hc
    simp only [onResponseError] at hc
    by_cases hcond : e.status = 401 ∧ strContains e.config.url "/auth/refresh" = false ∧
        strContains e.config.url "/auth/login" = false ∧ e.config.retryFlag = false
    · rw [if_pos hcond] at hc
      cases r with
      | none => simp at hc
      | some t =>
        simp at hc
        simp [← hc]
    · rw [if_neg hcond] at hc
      simp at hc
  · intro h1 h2 h3 h4 h5
    subst h5
    unfold onResponseError
    simp [h1, h2, h3, h4]

/-- Witness for C9: a 401 on an already-retried request is rejected
unchanged, and a failed refresh on a fresh 401 clears the token and
propagates the original error. -/
theorem interceptor_refresh_guard_witness :
    onResponseError (some "t2") { currentToken := some "t1", authHeader := some "Bearer t1" }
      { status := 401, config := { url := "/api/documents", retryFlag := true, authHeader := none } } =
      ({ currentToken := some "t1", authHeader := some "Bearer t1" },
       InterceptOutcome.reject 401 { url := "/api/documents", retryFlag := true, authHeader := none }) ∧
    onResponseError none { currentToken := some "t1", authHeader := some "Bearer t1" }
      { status := 401, config := { url := "/api/documents", retryFlag := false, authHeader := none } } =
      (clearAuthToken,
       InterceptOutcome.reject 401 { url := "/api/documents", retryFlag := true, authHeader := none }) :=
  ⟨(interceptor_refresh_guard (some "t2") _ _).1 rfl,
   (interceptor_refresh_guard none _ _).2.2.2.2 rfl rfl (by decide) (by decide) rfl⟩

section RetrievalLemmas

variable {α : Type}

theorem mem_insertRanked (le : α → α → Bool) (a x : α) (l : List α)
    (h : x ∈ insertRanked le a l) : x = a ∨ x ∈ l := by
  induction l with
  | nil =>
    simp [insertRanked] at h
    exact Or.inl h
  | cons b t ih =>
    simp only [insertRanked] at h
    split at h
    · rcases List.mem_cons.mp h with h1 | h1
      · exact Or.inl h1
      · exact Or.inr h1
    · rcases List.mem_cons.mp h with h1 | h1
      · exact Or.inr (List.mem_cons.mpr (Or.inl h1))
      · rcases ih h1 with h2 | h2
        · exact Or.inl h2
        · exact Or.inr (List.mem_cons.mpr (Or.inr h2))

theorem mem_sortRanked (le : α → α → Bool) (x : α) (l : List α)
    (h : x ∈ sortRanked le l) : x ∈ l := by
  induction l with
  | nil => simp [sortRanked] at h
  | cons a t ih =>
    simp only [sortRanked] at h
    rcases mem_insertRanked le a x _ h with h1 | h1
    · exact h1 ▸ List.mem_cons_self a t
    · exact List.mem_cons.mpr (Or.inr (ih h1))

end RetrievalLemmas

theorem mem_queryIndex {index : List VectorEntry} {qv : List Int}
    {ns topK : Nat} {h : VectorEntry × Int}
    (hm : h ∈ queryIndex index qv ns topK) : h.1 ∈ index ∧ h.1.ns = ns := by
  unfold queryIndex at hm
  have h1 := List.mem_of_mem_take hm
  have h2 := mem_sortRanked _ _ _ h1
  rcases List.mem_map.mp h2 with ⟨e, he, heq⟩
  rcases List.mem_filter.mp he with ⟨hein, hns⟩
  have hfst : h.1 = e := by rw [← heq]
  refine ⟨hfst ▸ hein, ?_⟩
  rw [hfst]
  exact of_decide_eq_true hns

theorem resolveHit_shape {st : St} {h : VectorEntry × Int} {r : Retrieved}
    (hr : resolveHit st h = some r) :
    ∃ doc, st.docs h.1.docId = some doc ∧ r.owner = doc.owner ∧
      r.docId = h.1.docId := by
  unfold resolveHit at hr
  split at hr
  · exact absurd hr (by simp)
  · next doc hdoc =>
    split at hr
    · exact absurd hr (by simp)
    · simp only [Option.some.injEq] at hr
      subst hr
      exact ⟨doc, hdoc, rfl, rfl⟩

/-- Claim C3: retrieval is owner-scoped — for distinct users `a ≠ b` and any
`top_k`, every chunk returned by `retrieve (query, a, top_k)` belongs to a
document owned by `a` and never to one owned by `b`, because the vector
index query is restricted to `a`'s namespace. -/
theorem retrieve_owner_scoped (env : Env) (st : St) (q : String)
    (a b topK : Nat) (hwf : wfNamespaces st) (hab : a ≠ b) :
    ∀ r ∈ retrieve env st q a topK,
      r.owner = a ∧ r.owner ≠ b ∧
      ∀ doc, st.docs r.docId = some doc → doc.owner ≠ b := by
  intro r hr
  unfold retrieve at hr
  rcases List.mem_filterMap.mp hr with ⟨h, hh, hres⟩
  have hq := mem_queryIndex hh
  rcases resolveHit_shape hres with ⟨doc, hdoc, howner, hdocid⟩
  have hmap := hwf h.1 hq.1
  rw [hdoc] at hmap
  simp only [Option.map_some', Option.some.injEq] at hmap
  have hra : r.owner = a := by rw [howner, hmap, hq.2]
  refine ⟨hra, by rw [hra]; exact hab, ?_⟩
  intro doc' hdoc'
  rw [hdocid] at hdoc'
  rw [hdoc] at hdoc'
  cases hdoc'
  rw [hmap, hq.2]
  exact hab

/-- Claim C7: empty corpus — for a user with no completed documents (in a
state whose vector entries all belong to completed documents of their
namespace owner), `retrieve` returns the empty list rather than an error,
and `search` returns zero citations together with the non-empty
"no information found" answer and the history row, never an exception. -/
theorem search_empty_corpus (env : Env) (st : St) (u : Nat) (q : String)
    (topK : Nat) (includeImages : Bool) (ms : Nat)
    (hwf : wfIndexB st = true) (hnone : ownerHasNoCompleted st u) :
    retrieve env st q u topK = [] ∧
    search env st u q topK includeImages ms =
      Except.ok
        ({ answer := noInfoAnswer, citations := [], query := q
           processing_time_ms := ms },
         { userId := u, query := q, response := noInfoAnswer
           chunksRetrieved := 0, responseTimeMs := ms }) ∧
    noInfoAnswer ≠ "" := by
  have hfilter : st.index.filter (fun e => e.ns = u) = [] := by
    rw [List.filter_eq_nil_iff]
    intro e he
    simp only [decide_eq_true_eq]
    intro hns
    have hall := List.all_eq_true.mp hwf e he
    revert hall
    split
    · simp
    · next doc hdoc =>
      intro hall
      simp only [Bool.and_eq_true, beq_iff_eq] at hall
      have := hnone e.docId
      rw [hdoc] at this
      exact this (by rw [hall.1, hns]) hall.2
  have hret : retrieve env st q u topK = [] := by
    unfold retrieve queryIndex
    rw [hfilter]
    simp [sortRanked]
  refine ⟨hret, ?_, by simp [noInfoAnswer]⟩
  unfold search
  rw [hret]
  simp

/-- Witness for C3 at a concrete state: the vector indexed for user 5's
completed document is returned to user 5, never to user 6. -/
theorem retrieve_owner_scoped_witness :
    retrievedW ∈ retrieve searchEnvW searchStW "alpha" 5 4 ∧
    retrievedW.owner = 5 ∧ retrievedW.owner ≠ 6 ∧
    (∀ doc, searchStW.docs retrievedW.docId = some doc → doc.owner ≠ 6) :=
  have h := retrieve_owner_scoped searchEnvW searchStW "alpha" 5 6 4
    (by
      intro e he
      simp only [searchStW, List.mem_singleton] at he
      subst he
      rfl)
    (by decide) retrievedW (by decide)
  ⟨by decide, h.1, h.2.1, h.2.2⟩

/-- Witness for C7: a user owning only a pending document gets the empty
retrieval and the "no information found" search result. -/
theorem search_empty_corpus_witness :
    retrieve
      { parseResult := none, fallbackResult := none
        describeResult := fun _ => none, embedOk := fun _ => true
        embedVec := fun _ => [1], generateResult := fun _ => none, now := 0 }
      { docs := fun i =>
          if i = 2 then
            some { owner := 9, name := "p.pdf", status := Status.pending
                   totalPages := none, processingError := none
                   processedAt := none, degradedParse := false }
          else none
        pages := [], chunks := [], index := [] }
      "anything" 9 5 = [] ∧
    search
      { parseResult := none, fallbackResult := none
        describeResult := fun _ => none, embedOk := fun _ => true
        embedVec := fun _ => [1], generateResult := fun _ => none, now := 0 }
      { docs := fun i =>
          if i = 2 then
            some { owner := 9, name := "p.pdf", status := Status.pending
                   totalPages := none, processingError := none
                   processedAt := none, degradedParse := false }
          else none
        pages := [], chunks := [], index := [] }
      9 "anything" 5 true 12 =
      Except.ok
        ({ answer := noInfoAnswer, citations := [], query := "anything"
           processing_time_ms := 12 },
         { userId := 9, query := "anything", response := noInfoAnswer
           chunksRetrieved := 0, responseTimeMs := 12 }) ∧
    noInfoAnswer ≠ "" :=
  search_empty_corpus _ _ 9 "anything" 5 true 12 (by rfl)
    (by
      intro i
      dsimp only
      split
      · trivial
      · next _ doc hdoc =>
        by_cases h2 : i = 2
        · rw [if_pos h2] at hdoc
          cases hdoc
          simp
        · rw [if_neg h2] at hdoc
          cases hdoc)

theorem lookupVec_isSome_iff {idx : List VectorEntry} {k : Nat × Nat} :
    (lookupVec idx k).isSome = true ↔ ∃ e ∈ idx, e.key = k := by
  unfold lookupVec
  rw [Option.isSome_map']
  rw [List.find?_isSome]
  simp

theorem lookupVec_upsert_self (idx : List VectorEntry) (e : VectorEntry) :
    (lookupVec (upsertVec idx e) e.key).isSome = true := by
  rw [lookupVec_isSome_iff]
  unfold upsertVec
  split
  · next hany =>
    rcases List.any_eq_true.mp hany with ⟨x0, hx0, hkey⟩
    have hk : x0.key = e.key := of_decide_eq_true hkey
    exact ⟨e, List.mem_map.mpr ⟨x0, hx0, by rw [if_pos hk]⟩, rfl⟩
  · exact ⟨e, List.mem_append.mpr (Or.inr (List.mem_singleton_self e)), rfl⟩

theorem lookupVec_upsert_mono (idx : List VectorEntry) (e : VectorEntry)
    (k : Nat × Nat) (h : (lookupVec idx k).isSome = true) :
    (lookupVec (upsertVec idx e) k).isSome = true := by
  rw [lookupVec_isSome_iff] at h ⊢
  rcases h with ⟨x, hx, hk⟩
  unfold upsertVec
  split
  · by_cases hxe : x.key = e.key
    · refine ⟨e, List.mem_map.mpr ⟨x, hx, by rw [if_pos hxe]⟩, ?_⟩
      rw [← hxe]
      exact hk
    · exact ⟨x, List.mem_map.mpr ⟨x, hx, by rw [if_neg hxe]⟩, hk⟩
  · exact ⟨x, List.mem_append.mpr (Or.inl hx), hk⟩

theorem entriesFor_purge (idx : List VectorEntry) (d : Nat) :
    entriesFor (purgeVecs idx d) d = [] := by
  unfold entriesFor purgeVecs
  rw [List.filter_eq_nil_iff]
  intro e he
  rcases List.mem_filter.mp he with ⟨_, hne⟩
  simp only [decide_eq_true_eq] at hne ⊢
  exact hne

theorem statusOf_setDoc (st : St) (d : Nat) (doc : Document) :
    statusOf (setDoc st d doc) d = some doc.status := by
  simp [statusOf, setDoc]

theorem statusOf_failDoc (st : St) (d : Nat) (doc : Document) (m : String) :
    statusOf (failDoc st d doc m) d = some Status.failed := by
  simp [statusOf, failDoc, setDoc]

theorem errorOf_failDoc (st : St) (d : Nat) (doc : Document) (m : String) :
    errorOf (failDoc st d doc m) d = some m := by
  simp [errorOf, failDoc, setDoc]

theorem index_failDoc (st : St) (d : Nat) (doc : Document) (m : String) :
    (failDoc st d doc m).index = purgeVecs st.index d := rfl

theorem annotatePage_docId (env : Env) (d : Nat) (deg : Bool)
    (pt : Nat × String) : (annotatePage env d deg pt).docId = d := by
  unfold annotatePage
  dsimp only
  split
  · rfl
  · split <;> rfl

theorem exists_docId_upsertPage (pages : List PageRow) (p : PageRow) :
    ∃ q ∈ upsertPage pages p, q.docId = p.docId := by
  unfold upsertPage
  split
  · next hany =>
    rcases List.any_eq_true.mp hany with ⟨x, hx, hcond⟩
    have hc : x.docId = p.docId ∧ x.pageNumber = p.pageNumber :=
      of_decide_eq_true hcond
    exact ⟨p, List.mem_map.mpr ⟨x, hx, by rw [if_pos hc]⟩, rfl⟩
  · exact ⟨p, List.mem_append.mpr (Or.inr (List.mem_singleton_self p)), rfl⟩

theorem exists_docId_foldl_upsertPage (d : Nat) :
    ∀ (rows pages : List PageRow), rows ≠ [] → (∀ p ∈ rows, p.docId = d) →
      ∃ q ∈ rows.foldl upsertPage pages, q.docId = d := by
  intro rows
  induction rows with
  | nil => intro pages h _; exact absurd rfl h
  | cons p rest ih =>
    intro pages _ hall
    cases rest with
    | nil =>
      rcases exists_docId_upsertPage pages p with ⟨q, hq, hqd⟩
      refine ⟨q, hq, ?_⟩
      rw [hqd]
      exact hall p (List.mem_cons_self _ _)
    | cons p2 rest2 =>
      exact ih (upsertPage pages p) (by simp)
        (fun x hx => hall x (List.mem_cons.mpr (Or.inr hx)))

theorem mem_foldl_upsertChunk :
    ∀ (crows chs : List ChunkRow) (c' : ChunkRow),
      c' ∈ crows.foldl upsertChunk chs → c' ∈ chs ∨ c' ∈ crows := by
  intro crows
  induction crows with
  | nil => intro chs c' h; exact Or.inl h
  | cons c rest ih =>
    intro chs c' h
    rcases ih (upsertChunk chs c) c' h with h1 | h1
    · unfold upsertChunk at h1
      split at h1
      · rcases List.mem_map.mp h1 with ⟨x, hx, hfx⟩
        by_cases hc : x.docId = c.docId ∧ x.chunkIndex = c.chunkIndex
        · rw [if_pos hc] at hfx
          right
          exact List.mem_cons.mpr (Or.inl hfx.symm)
        · rw [if_neg hc] at hfx
          left
          exact hfx ▸ hx
      · rcases List.mem_append.mp h1 with h2 | h2
        · exact Or.inl h2
        · right
          exact List.mem_cons.mpr (Or.inl (List.mem_singleton.mp h2))
    · right
      exact List.mem_cons.mpr (Or.inr h1)

theorem embedLoop_pages (env : Env) (o d : Nat) :
    ∀ (crows : List ChunkRow) (st : St),
      (embedLoop env o d st crows).1.pages = st.pages := by
  intro crows
  induction crows with
  | nil => intro st; rfl
  | cons c rest ih =>
    intro st
    unfold embedLoop
    split
    · exact ih _
    · rfl

theorem embedLoop_docs (env : Env) (o d : Nat) :
    ∀ (crows : List ChunkRow) (st : St),
      (embedLoop env o d st crows).1.docs = st.docs := by
  intro crows
  induction crows with
  | nil => intro st; rfl
  | cons c rest ih =>
    intro st
    unfold embedLoop
    split
    · exact ih _
    · rfl

theorem embedLoop_success (env : Env) (o d : Nat) :
    ∀ (crows : List ChunkRow) (st : St),
      (embedLoop env o d st crows).2.2 = true →
      (∀ c ∈ st.chunks, c.docId = d →
        c.chunkIndex ∈ crows.map ChunkRow.chunkIndex ∨
          c.vectorId = some (d, c.chunkIndex)) →
      (∀ c ∈ (embedLoop env o d st crows).1.chunks, c.docId = d →
          c.vectorId = some (d, c.chunkIndex)) ∧
      (∀ c ∈ crows,
          (lookupVec (embedLoop env o d st crows).1.index
            (d, c.chunkIndex)).isSome = true) ∧
      (∀ k, (lookupVec st.index k).isSome = true →
          (lookupVec (embedLoop env o d st crows).1.index k).isSome = true) ∧
      (∀ c' ∈ (embedLoop env o d st crows).1.chunks, ∃ c ∈ st.chunks,
          c'.docId = c.docId ∧ c'.chunkIndex = c.chunkIndex) := by
  intro crows
  induction crows with
  | nil =>
    intro st _ hpre
    refine ⟨?_, ?_, ?_, ?_⟩
    · intro c hc hcd
      rcases hpre c hc hcd with h | h
      · simp at h
      · exact h
    · intro c hc
      simp at hc
    · intro k hk
      exact hk
    · intro c' hc'
      exact ⟨c', hc', rfl, rfl⟩
  | cons c0 rest ih =>
    intro st hsucc hpre
    by_cases hok : env.embedOk c0.content = true
    case neg =>
      exfalso
      simp only [embedLoop, if_neg hok] at hsucc
      exact absurd hsucc (by simp)
    case pos =>
      simp only [embedLoop, if_pos hok] at hsucc ⊢
      have hpre' : ∀ c ∈ (setChunkVid st.chunks d c0.chunkIndex), c.docId = d →
          c.chunkIndex ∈ rest.map ChunkRow.chunkIndex ∨
            c.vectorId = some (d, c.chunkIndex) := by
        intro c hc hcd
        rcases List.mem_map.mp hc with ⟨x, hx, hfx⟩
        by_cases hcond : x.docId = d ∧ x.chunkIndex = c0.chunkIndex
        · rw [if_pos hcond] at hfx
          right
          rw [← hfx]
          simp [hcond.2]
        · rw [if_neg hcond] at hfx
          rw [← hfx] at hcd ⊢
          rcases hpre x hx hcd with h | h
          · rcases List.mem_map.mp h with ⟨y, hy, hyx⟩
            rcases List.mem_cons.mp hy with h2 | h2
            · exfalso
              exact hcond ⟨hcd, by rw [← hyx, h2]⟩
            · left
              exact List.mem_map.mpr ⟨y, h2, hyx⟩
          · right
            exact h
      have hmain := ih _ hsucc hpre'
      refine ⟨hmain.1, ?_, ?_, ?_⟩
      · intro c hc
        rcases List.mem_cons.mp hc with h | h
        · rw [h]
          exact hmain.2.2.1 (d, c0.chunkIndex)
            (lookupVec_upsert_self st.index
              { key := (d, c0.chunkIndex), ns := o, docId := d
                vec := env.embedVec c0.content })
        · exact hmain.2.1 c h
      · intro k hk
        exact hmain.2.2.1 k
          (lookupVec_upsert_mono st.index _ k hk)
      · intro c' hc'
        rcases hmain.2.2.2 c' hc' with ⟨c, hcmem, hce⟩
        rcases List.mem_map.mp hcmem with ⟨x, hx, hfx⟩
        refine ⟨x, hx, ?_⟩
        by_cases hcond : x.docId = d ∧ x.chunkIndex = c0.chunkIndex
        · rw [if_pos hcond] at hfx
          rw [← hfx] at hce
          exact hce
        · rw [if_neg hcond] at hfx
          rw [← hfx] at hce
          exact hce

theorem runStages_parse_fail (env : Env) (st : St) (d : Nat) (doc : Document)
    (hps : parseStage env = none) :
    (runStages env st d doc).1 = failDoc st d doc "parsing failed" := by
  unfold runStages
  rw [hps]

theorem runStages_no_pages (env : Env) (st : St) (d : Nat) (doc : Document)
    (pr : List (Nat × String) × Bool) (hps : parseStage env = some pr)
    (he : pr.1.isEmpty = true) :
    (runStages env st d doc).1 = failDoc st d doc "parsing produced no pages" := by
  unfold runStages
  rw [hps]
  dsimp only
  rw [if_pos he]

theorem runStages_success (env : Env) (st : St) (d : Nat) (doc : Document)
    (pr : List (Nat × String) × Bool) (hps : parseStage env = some pr)
    (he : pr.1.isEmpty = false)
    (hsucc : (embedLoop env doc.owner d (stagedState env st d pr)
      (docRows d pr.1)).2.2 = true) :
    (runStages env st d doc).1 =
      setDoc (embedLoop env doc.owner d (stagedState env st d pr)
          (docRows d pr.1)).1 d
        { doc with status := Status.completed, degradedParse := pr.2
                   totalPages := some pr.1.length
                   processedAt := some env.now } := by
  unfold runStages
  rw [hps]
  dsimp only
  rw [if_neg (by rw [he]; exact Bool.false_ne_true)]
  rw [if_pos hsucc]

theorem runStages_embed_fail (env : Env) (st : St) (d : Nat) (doc : Document)
    (pr : List (Nat × String) × Bool) (hps : parseStage env = some pr)
    (he : pr.1.isEmpty = false)
    (hsucc : (embedLoop env doc.owner d (stagedState env st d pr)
      (docRows d pr.1)).2.2 = false) :
    (runStages env st d doc).1 =
      failDoc (embedLoop env doc.owner d (stagedState env st d pr)
          (docRows d pr.1)).1 d
        { doc with status := Status.processing, degradedParse := pr.2 }
        "embedding failed" := by
  unfold runStages
  rw [hps]
  dsimp only
  rw [if_neg (by rw [he]; exact Bool.false_ne_true)]
  rw [if_neg (by rw [hsucc]; exact Bool.false_ne_true)]

theorem ingest_fst_pending (env : Env) (st : St) (d : Nat) (doc : Document)
    (hdoc : st.docs d = some doc) (hpend : doc.status = Status.pending) :
    (ingest env st d).1 =
      (runStages env (setDoc st d { doc with status := Status.processing }) d
        { doc with status := Status.processing }).1 := by
  unfold ingest
  rw [hdoc]
  dsimp only
  rw [if_pos hpend]

/-- Claim C2: a document driven to `failed` by an ingestion run has a non-null
processing_error, and no vector index entries referencing it remain —
including vectors already upserted for earlier chunks before the failing
stage (the failure path purges them all). -/
theorem ingest_failed_cleanup (env : Env) (st : St) (d : Nat) (doc : Document)
    (hdoc : st.docs d = some doc) (hpend : doc.status = Status.pending)
    (hfail : statusOf (ingest env st d).1 d = some Status.failed) :
    (errorOf (ingest env st d).1 d).isSome = true ∧
    entriesFor (ingest env st d).1.index d = [] := by
  rw [ingest_fst_pending env st d doc hdoc hpend] at hfail ⊢
  rcases hps : parseStage env with _ | pr
  · rw [runStages_parse_fail env _ d _ hps]
    refine ⟨?_, ?_⟩
    · rw [errorOf_failDoc]
      rfl
    · rw [index_failDoc]
      exact entriesFor_purge _ d
  · by_cases hemp : pr.1.isEmpty = true
    · rw [runStages_no_pages env _ d _ pr hps hemp]
      refine ⟨?_, ?_⟩
      · rw [errorOf_failDoc]
        rfl
      · rw [index_failDoc]
        exact entriesFor_purge _ d
    · have hemp' : pr.1.isEmpty = false := by
        cases h : pr.1.isEmpty
        · rfl
        · exact absurd h hemp
      by_cases hsucc : (embedLoop env
          ({ doc with status := Status.processing } : Document).owner d
          (stagedState env (setDoc st d { doc with status := Status.processing }) d pr)
          (docRows d pr.1)).2.2 = true
      · exfalso
        rw [runStages_success env _ d _ pr hps hemp' hsucc] at hfail
        rw [statusOf_setDoc] at hfail
        simp at hfail
      · have hsucc' : (embedLoop env
            ({ doc with status := Status.processing } : Document).owner d
            (stagedState env (setDoc st d { doc with status := Status.processing }) d pr)
            (docRows d pr.1)).2.2 = false := by
          cases h : (embedLoop env
              ({ doc with status := Status.processing } : Document).owner d
              (stagedState env (setDoc st d { doc with status := Status.processing }) d pr)
              (docRows d pr.1)).2.2
          · rfl
          · exact absurd h hsucc
        rw [runStages_embed_fail env _ d _ pr hps hemp' hsucc']
        refine ⟨?_, ?_⟩
        · rw [errorOf_failDoc]
          rfl
        · rw [index_failDoc]
          exact entriesFor_purge _ d

theorem pages_setDoc (st : St) (d : Nat) (doc : Document) :
    (setDoc st d doc).pages = st.pages := rfl

theorem chunks_setDoc (st : St) (d : Nat) (doc : Document) :
    (setDoc st d doc).chunks = st.chunks := rfl

theorem index_setDoc (st : St) (d : Nat) (doc : Document) :
    (setDoc st d doc).index = st.index := rfl

/-- Claim C1: a document driven to `completed` by an ingestion run (starting
from a state with no chunk rows for it) has at least one DocumentPage row,
and every DocumentChunk belonging to it has a non-null vector_id whose
lookup in the vector index returns a vector (round-trip integrity). -/
theorem ingest_completed_integrity (env : Env) (st : St) (d : Nat)
    (doc : Document) (hdoc : st.docs d = some doc)
    (hpend : doc.status = Status.pending)
    (hclean : ∀ c ∈ st.chunks, c.docId ≠ d)
    (hcomp : statusOf (ingest env st d).1 d = some Status.completed) :
    (∃ p ∈ (ingest env st d).1.pages, p.docId = d) ∧
    (∀ c ∈ (ingest env st d).1.chunks, c.docId = d →
      ∃ k, c.vectorId = some k ∧
        (lookupVec (ingest env st d).1.index k).isSome = true) := by
  rw [ingest_fst_pending env st d doc hdoc hpend] at hcomp ⊢
  rcases hps : parseStage env with _ | pr
  · exfalso
    rw [runStages_parse_fail env _ d _ hps] at hcomp
    rw [statusOf_failDoc] at hcomp
    simp at hcomp
  · by_cases hemp : pr.1.isEmpty = true
    · exfalso
      rw [runStages_no_pages env _ d _ pr hps hemp] at hcomp
      rw [statusOf_failDoc] at hcomp
      simp at hcomp
    · have hemp' : pr.1.isEmpty = false := by
        cases h : pr.1.isEmpty
        · rfl
        · exact absurd h hemp
      by_cases hsucc : (embedLoop env
          ({ doc with status := Status.processing } : Document).owner d
          (stagedState env (setDoc st d { doc with status := Status.processing }) d pr)
          (docRows d pr.1)).2.2 = true
      case neg =>
        exfalso
        have hsucc' : (embedLoop env
            ({ doc with status := Status.processing } : Document).owner d
            (stagedState env (setDoc st d { doc with status := Status.processing }) d pr)
            (docRows d pr.1)).2.2 = false := by
          cases h : (embedLoop env
              ({ doc with status := Status.processing } : Document).owner d
              (stagedState env (setDoc st d { doc with status := Status.processing }) d pr)
              (docRows d pr.1)).2.2
          · rfl
          · exact absurd h hsucc
        rw [runStages_embed_fail env _ d _ pr hps hemp' hsucc'] at hcomp
        rw [statusOf_failDoc] at hcomp
        simp at hcomp
      case pos =>
        rw [runStages_success env _ d _ pr hps hemp' hsucc] at hcomp ⊢
        -- the staged chunk rows of `d` all come from the Chunker output
        have hstagedChunks : ∀ c ∈ (stagedState env
            (setDoc st d { doc with status := Status.processing }) d pr).chunks,
            c.docId = d → c ∈ docRows d pr.1 := by
          intro c hc hcd
          rcases mem_foldl_upsertChunk (docRows d pr.1) _ c hc with h | h
          · exact absurd hcd (hclean c h)
          · exact h
        have hpre : ∀ c ∈ (stagedState env
            (setDoc st d { doc with status := Status.processing }) d pr).chunks,
            c.docId = d →
            c.chunkIndex ∈ (docRows d pr.1).map ChunkRow.chunkIndex ∨
              c.vectorId = some (d, c.chunkIndex) := by
          intro c hc hcd
          exact Or.inl (List.mem_map_of_mem ChunkRow.chunkIndex
            (hstagedChunks c hc hcd))
        have hmain := embedLoop_success env
          ({ doc with status := Status.processing } : Document).owner d
          (docRows d pr.1)
          (stagedState env (setDoc st d { doc with status := Status.processing }) d pr)
          hsucc hpre
        constructor
        · -- at least one page row for d
          rw [pages_setDoc]
          rw [embedLoop_pages]
          have hrows : parsedRows env d pr ≠ [] := by
            unfold parsedRows
            rw [Ne, List.map_eq_nil_iff]
            intro h
            rw [h] at hemp'
            simp at hemp'
          have hrowsd : ∀ p ∈ parsedRows env d pr, p.docId = d := by
            intro p hp
            rcases List.mem_map.mp hp with ⟨pt, _, hpt⟩
            rw [← hpt]
            exact annotatePage_docId env d pr.2 pt
          exact exists_docId_foldl_upsertPage d (parsedRows env d pr) _ hrows hrowsd
        · -- every chunk of d has an indexed vector
          intro c hc hcd
          rw [chunks_setDoc] at hc
          rw [index_setDoc]
          refine ⟨(d, c.chunkIndex), hmain.1 c hc hcd, ?_⟩
          rcases hmain.2.2.2 c hc with ⟨c0, hc0, hce1, hce2⟩
          have hc0d : c0.docId = d := by rw [← hce1]; exact hcd
          have hc0row := hstagedChunks c0 hc0 hc0d
          have := hmain.2.1 c0 hc0row
          rw [hce2]
          exact this

/-- Witness for C1: full successful ingestion of a two-chunk document. -/
theorem ingest_completed_integrity_witness :
    (∃ p ∈ (ingest envAllOk uploadSt 7).1.pages, p.docId = 7) ∧
    (∀ c ∈ (ingest envAllOk uploadSt 7).1.chunks, c.docId = 7 →
      ∃ k, c.vectorId = some k ∧
        (lookupVec (ingest envAllOk uploadSt 7).1.index k).isSome = true) :=
  ingest_completed_integrity envAllOk uploadSt 7 pendingDoc rfl rfl
    (by decide) (by decide)

/-- Witness for C2: embedding fails on chunk 2 after chunk 1's vector was
upserted; the run ends `failed` with an error recorded and zero index
entries for the document. -/
theorem ingest_failed_cleanup_witness :
    (errorOf (ingest envEmbedFail uploadSt 7).1 7).isSome = true ∧
    entriesFor (ingest envEmbedFail uploadSt 7).1.index 7 = [] :=
  ingest_failed_cleanup envEmbedFail uploadSt 7 pendingDoc rfl rfl (by decide)

/-- Claim C8: every successful search call returns the answer text, the
ordered citation list (each citation carrying document id and name, page
number, chunk text and relevance score, with an image reference only when
`include_images` was requested and the cited page has one, null otherwise),
the original query, and the measured processing time — and the recorded
history row carries the query, latency and retrieved-chunk count. -/
theorem search_result_shape (env : Env) (st : St) (user : Nat) (q : String)
    (topK : Nat) (includeImages : Bool) (ms : Nat) (r : SearchResult)
    (hist : SearchHistoryRow)
    (h : search env st user q topK includeImages ms = Except.ok (r, hist)) :
    r.query = q ∧ r.processing_time_ms = ms ∧
    r.citations = (retrieve env st q user topK).map (toCitation includeImages) ∧
    (∀ c ∈ r.citations, ∃ rc ∈ retrieve env st q user topK,
      c.document_id = toString rc.docId ∧ c.document_name = rc.docName ∧
      c.page_number = rc.pageNumber ∧ c.chunk_content = rc.chunkRow.content ∧
      c.relevance_score = rc.score ∧
      c.image_url = (if includeImages then rc.imagePath else none)) ∧
    (includeImages = false → ∀ c ∈ r.citations, c.image_url = none) ∧
    hist.query = q ∧ hist.responseTimeMs = ms ∧
    hist.chunksRetrieved = (retrieve env st q user topK).length := by
  unfold search at h
  by_cases hemp : (retrieve env st q user topK).isEmpty = true
  · rw [if_pos hemp] at h
    have hnil : retrieve env st q user topK = [] := List.isEmpty_iff.mp hemp
    simp only [Except.ok.injEq, Prod.mk.injEq] at h
    obtain ⟨hr, hh⟩ := h
    subst hr
    subst hh
    rw [hnil]
    exact ⟨rfl, rfl, rfl, by simp, by simp, rfl, rfl, rfl⟩
  · rw [if_neg hemp] at h
    rcases hgen : env.generateResult (buildPrompt q (retrieve env st q user topK))
      with _ | txt
    · rw [hgen] at h
      exact absurd h (by simp)
    · rw [hgen] at h
      dsimp only at h
      by_cases htxt : txt = ""
      · rw [if_pos htxt] at h
        exact absurd h (by simp)
      · rw [if_neg htxt] at h
        simp only [Except.ok.injEq, Prod.mk.injEq] at h
        obtain ⟨hr, hh⟩ := h
        subst hr
        subst hh
        refine ⟨rfl, rfl, rfl, ?_, ?_, rfl, rfl, rfl⟩
        · intro c hc
          rcases List.mem_map.mp hc with ⟨rc, hrc, hrceq⟩
          subst hrceq
          exact ⟨rc, hrc, rfl, rfl, rfl, rfl, rfl, rfl⟩
        · intro hfalse c hc
          rcases List.mem_map.mp hc with ⟨rc, hrc, hrceq⟩
          subst hrceq
          simp [toCitation, hfalse]

/-- Witness for C8 on a concrete completed corpus. -/
theorem search_result_shape_witness :
    searchResultW.query = "alpha" ∧ searchResultW.processing_time_ms = 42 ∧
    searchResultW.citations =
      (retrieve searchEnvW searchStW "alpha" 5 4).map (toCitation true) ∧
    (∀ c ∈ searchResultW.citations,
      ∃ rc ∈ retrieve searchEnvW searchStW "alpha" 5 4,
      c.document_id = toString rc.docId ∧ c.document_name = rc.docName ∧
      c.page_number = rc.pageNumber ∧ c.chunk_content = rc.chunkRow.content ∧
      c.relevance_score = rc.score ∧
      c.image_url = (if true then rc.imagePath else none)) ∧
    (true = false → ∀ c ∈ searchResultW.citations, c.image_url = none) ∧
    searchHistW.query = "alpha" ∧ searchHistW.responseTimeMs = 42 ∧
    searchHistW.chunksRetrieved =
      (retrieve searchEnvW searchStW "alpha" 5 4).length :=
  search_result_shape searchEnvW searchStW 5 "alpha" 4 true 42
    searchResultW searchHistW rfl

end Kalag
